import Mathlib

/-!
# Verification of the pentagi-taxonomy schema validator and code generators

Shallow embedding of `codegen/shared/validator.py`, the Go mapper in
`codegen/go/generate.py` and the Python mapper in `codegen/python/generate.py`.

YAML scalars and collections are modelled by the inductive type `Value`.
Python exceptions are modelled by `PyError`: the repository's own
`SchemaValidationError` is `PyError.schemaError msg`, while the built-in
exceptions that dynamic typing can raise (`AttributeError` from calling a
string method on a non-string, `TypeError` from comparing or iterating
incomparable values, `KeyError` from a missing subscript) are separate
constructors.  Fallible Python code becomes `Except PyError`.

Modelling notes, stated once here:
* Python `dict`s (YAML mappings) are association lists with unique string
  keys preserving insertion order; lookup takes the first match.
* Python `float`s are modelled as rationals; no claim depends on
  floating-point rounding or on the textual formatting of floats.
* Python `bool` is a subclass of `int`, so `isinstance(x, int)` is true for
  booleans and booleans participate in numeric comparison as 0/1; the
  embedding mirrors this.
* `SUPPORTED_PRIMITIVE_TYPES` is a Python `set`; its iteration order inside
  error messages is fixed here to the literal order of the source.
* `repr` of a string is modelled without Python's character escaping; no
  claim depends on escaped characters inside generated text.
-/

namespace Taxonomy

/-- A parsed YAML / Python value. -/
inductive Value where
  | vNull : Value
  | vBool : Bool → Value
  | vInt : Int → Value
  | vFloat : ℚ → Value
  | vStr : String → Value
  | vList : List Value → Value
  | vDict : List (String × Value) → Value

/-- Python exceptions that the embedded code can raise. -/
inductive PyError where
  | schemaError : String → PyError
  | attributeError : PyError
  | typeError : PyError
  | keyError : PyError
deriving DecidableEq, Repr

abbrev AList := List (String × Value)

/-- First-match association-list lookup (Python dict subscript/`get`). -/
def alookup (k : String) : AList → Option Value
  | [] => none
  | (k2, v) :: rest => if k2 = k then some v else alookup k rest

/-- Python `k in d` for a dict. -/
def hasKey (k : String) (d : AList) : Bool := (alookup k d).isSome

/-- Keys of a dict in insertion order (Python `d.keys()`). -/
def dictKeys (d : AList) : List String := d.map Prod.fst

/-- Numeric view of a value: Python treats int, float and bool as
mutually comparable numbers (bool as 0/1). -/
def numVal : Value → Option ℚ
  | .vInt n => some (n : ℚ)
  | .vFloat q => some q
  | .vBool b => some (if b then 1 else 0)
  | _ => none

/-- Python `s.endswith(suffix)`, computed on the character list. -/
def strEndsWith (s suffix : String) : Bool :=
  suffix.data.reverse.isPrefixOf s.data.reverse

/-- Python `s[:-n]` for `n ≤ len(s)`, computed on the character list. -/
def strDropRight (s : String) (n : Nat) : String :=
  String.mk (s.data.take (s.data.length - n))

/-- Python `s.lower()` on the character list. -/
def strToLower (s : String) : String := String.mk (s.data.map Char.toLower)

/-- Python `s.startswith(p)`, computed on the character list. -/
def strStartsWith (s p : String) : Bool := p.data.isPrefixOf s.data

/-- Lexicographic `<` on character lists (Python string comparison by
code point). -/
def charListLt : List Char → List Char → Bool
  | [], [] => false
  | [], _ :: _ => true
  | _ :: _, [] => false
  | a :: as, b :: bs => if a < b then true else if b < a then false else charListLt as bs

/-- Python `a < b` on strings. -/
def strLtB (a b : String) : Bool := charListLt a.data b.data

/-- Python `isinstance(x, int)`; true for bool as well, since bool
subclasses int. -/
def isInstInt : Value → Bool
  | .vInt _ => true
  | .vBool _ => true
  | _ => false

mutual
/-- Python `==` between values.  Numbers compare across int/float/bool;
lists compare pointwise.  Dict comparison is pointwise in insertion order
(the YAML mappings of this repository have unique keys in a fixed order,
where Python compares dicts as key-value sets). -/
def pyEq : Value → Value → Bool
  | .vNull, .vNull => true
  | .vStr a, .vStr b => a == b
  | .vList as, .vList bs => pyEqList as bs
  | .vDict as, .vDict bs => pyEqDict as bs
  | a, b =>
      match numVal a, numVal b with
      | some x, some y => x == y
      | _, _ => false

/-- Pointwise `==` on lists. -/
def pyEqList : List Value → List Value → Bool
  | [], [] => true
  | a :: as, b :: bs => pyEq a b && pyEqList as bs
  | _, _ => false

/-- Pointwise `==` on dict entries. -/
def pyEqDict : List (String × Value) → List (String × Value) → Bool
  | [], [] => true
  | (k, a) :: as, (k2, b) :: bs => k == k2 && pyEq a b && pyEqDict as bs
  | _, _ => false
end

mutual
/-- Python `a > b`.  Numbers compare numerically, strings
lexicographically, lists lexicographically via `==`/`>` on elements;
every other combination raises `TypeError` (in particular dicts, `None`,
and mixed string/number comparisons). -/
def pyGt : Value → Value → Except PyError Bool
  | .vStr a, .vStr b => .ok (strLtB b a)
  | .vList as, .vList bs => pyGtList as bs
  | a, b =>
      match numVal a, numVal b with
      | some x, some y => .ok (decide (x > y))
      | _, _ => .error .typeError

/-- Python's lexicographic `>` on lists: skip `==` elements, then compare
the first differing pair. -/
def pyGtList : List Value → List Value → Except PyError Bool
  | [], [] => .ok false
  | [], _ :: _ => .ok false
  | _ :: _, [] => .ok true
  | a :: as, b :: bs => if pyEq a b then pyGtList as bs else pyGt a b
end

mutual
/-- Python `repr` (string escaping not modelled). -/
def pyRepr : Value → String
  | .vNull => "None"
  | .vBool b => if b then "True" else "False"
  | .vInt n => toString n
  | .vFloat q => toString q
  | .vStr s => "\x27" ++ s ++ "\x27"
  | .vList l => "[" ++ pyReprList l ++ "]"
  | .vDict d => "\x7b" ++ pyReprDict d ++ "\x7d"

/-- `repr` of list elements joined by `", "`. -/
def pyReprList : List Value → String
  | [] => ""
  | [v] => pyRepr v
  | v :: rest => pyRepr v ++ ", " ++ pyReprList rest

/-- `repr` of dict entries joined by `", "`. -/
def pyReprDict : List (String × Value) → String
  | [] => ""
  | [(k, v)] => "\x27" ++ k ++ "\x27: " ++ pyRepr v
  | (k, v) :: rest => "\x27" ++ k ++ "\x27: " ++ pyRepr v ++ ", " ++ pyReprDict rest
end

/-- Python `str(x)`: identity on strings, `repr` otherwise. -/
def pyStr : Value → String
  | .vStr s => s
  | v => pyRepr v

/-- Python `", ".join`-style joining of already-stringified parts. -/
def joinSep (sep : String) : List String → String
  | [] => ""
  | [x] => x
  | x :: rest => x ++ sep ++ joinSep sep rest

/-- Python truthiness. -/
def pyTruthy : Value → Bool
  | .vNull => false
  | .vBool b => b
  | .vInt n => decide (n ≠ 0)
  | .vFloat q => decide (q ≠ 0)
  | .vStr s => !s.isEmpty
  | .vList l => !l.isEmpty
  | .vDict d => !d.isEmpty

/-- Python `s.rstrip("[]")`: remove every trailing `[` or `]`. -/
def rstripBrackets (s : String) : String :=
  String.mk ((s.data.reverse.dropWhile (fun c => c == '[' || c == ']')).reverse)

/-- `v.rstrip("[]")`: `AttributeError` unless `v` is a string. -/
def pyRstrip : Value → Except PyError String
  | .vStr s => .ok (rstripBrackets s)
  | _ => .error .attributeError

/-- Python `key in container`: dict key test, list membership via `==`,
substring test on strings; `TypeError` on non-iterables. -/
def pyContains (k : String) : Value → Except PyError Bool
  | .vDict d => .ok (hasKey k d)
  | .vList l => .ok (l.any (fun v => pyEq (.vStr k) v))
  | .vStr s => .ok (decide (k.data <:+: s.data))
  | _ => .error .typeError

/-- Python `v[k]` with a string key: dict lookup (`KeyError` when the key
is absent); `TypeError` for every other container. -/
def pyGetItem (v : Value) (k : String) : Except PyError Value :=
  match v with
  | .vDict d =>
      match alookup k d with
      | some x => .ok x
      | none => .error .keyError
  | _ => .error .typeError

/-- Python `x in s` for a set of strings `s`: strings test membership,
unhashable values (lists, dicts) raise `TypeError`, other hashable scalars
are simply not members. -/
def pySetContains (s : List String) : Value → Except PyError Bool
  | .vStr x => .ok (decide (x ∈ s))
  | .vList _ => .error .typeError
  | .vDict _ => .error .typeError
  | _ => .ok false

/-- Python `v.keys()` as a list: `AttributeError` unless `v` is a dict. -/
def pyKeys : Value → Except PyError (List String)
  | .vDict d => .ok (dictKeys d)
  | _ => .error .attributeError

/-- Python iteration (`for x in v`): lists yield elements, dicts yield
keys, strings yield one-character strings; `TypeError` otherwise. -/
def pyIter : Value → Except PyError (List Value)
  | .vList l => .ok l
  | .vDict d => .ok (d.map (fun kv => .vStr kv.1))
  | .vStr s => .ok (s.data.map (fun c => .vStr (String.mk [c])))
  | _ => .error .typeError

/-! ## `codegen/shared/validator.py` -/

/-- `SUPPORTED_PRIMITIVE_TYPES` (a Python set; listed here in the literal
order of the source, which also fixes the join order in messages). -/
def SUPPORTED_PRIMITIVE_TYPES : List String :=
  ["string", "int", "float", "boolean", "timestamp"]

/-- `', '.join(SUPPORTED_PRIMITIVE_TYPES)`. -/
def supportedJoined : String := joinSep ", " SUPPORTED_PRIMITIVE_TYPES

/-- `validate_field_type` (validator.py:19-40).  The final arm models the
`AttributeError` Python raises when `.endswith` is called on a non-string
`type` value. -/
def validate_field_type (field_name : String) (field_def : AList)
    (entity_type : String) : Except PyError Unit :=
  match alookup "type" field_def with
  | none => .error (.schemaError
      ("Field \x27" ++ field_name ++ "\x27 in " ++ entity_type ++
        " must have a \x27type\x27 property"))
  | some (.vStr field_type) =>
      if strEndsWith field_type "[]" then
        let base_type := strDropRight field_type 2
        if base_type ∈ SUPPORTED_PRIMITIVE_TYPES then .ok ()
        else .error (.schemaError
          ("Field \x27" ++ field_name ++ "\x27 in " ++ entity_type ++
            " has unsupported array base type \x27" ++ base_type ++
            "\x27. Supported types: " ++ supportedJoined))
      else if field_type ∈ SUPPORTED_PRIMITIVE_TYPES then .ok ()
      else .error (.schemaError
        ("Field \x27" ++ field_name ++ "\x27 in " ++ entity_type ++
          " has unsupported type \x27" ++ field_type ++
          "\x27. Supported types: " ++ supportedJoined ++
          " and arrays of these (e.g., \x27string[]\x27)"))
  | some _ => .error .attributeError

/-- The enum block of `validate_field_constraints` (validator.py:48-60). -/
def check_enum_constraint (field_name : String) (field_def : AList)
    (entity_type : String) (field_type : Value) (base_type : String) :
    Except PyError Unit :=
  if hasKey "enum" field_def then
    if base_type ≠ "string" then
      .error (.schemaError
        ("Field \x27" ++ field_name ++ "\x27 in " ++ entity_type ++
          " has \x27enum\x27 constraint but type is \x27" ++ pyStr field_type ++
          "\x27. Enum constraints are only valid for \x27string\x27 type."))
    else
      match (alookup "enum" field_def).getD .vNull with
      | .vList (_ :: _) => .ok ()
      | _ => .error (.schemaError
          ("Field \x27" ++ field_name ++ "\x27 in " ++ entity_type ++
            " has invalid \x27enum\x27 constraint. Must be a non-empty list."))
  else .ok ()

/-- The regex block of `validate_field_constraints` (validator.py:62-68). -/
def check_regex_constraint (field_name : String) (field_def : AList)
    (entity_type : String) (field_type : Value) (base_type : String) :
    Except PyError Unit :=
  if hasKey "regex" field_def then
    if base_type ≠ "string" then
      .error (.schemaError
        ("Field \x27" ++ field_name ++ "\x27 in " ++ entity_type ++
          " has \x27regex\x27 constraint but type is \x27" ++ pyStr field_type ++
          "\x27. Regex constraints are only valid for \x27string\x27 type."))
    else .ok ()
  else .ok ()

/-- The min/max block of `validate_field_constraints`
(validator.py:70-86). -/
def check_minmax_constraint (field_name : String) (field_def : AList)
    (entity_type : String) (field_type : Value) (base_type : String) :
    Except PyError Unit :=
  if hasKey "min" field_def || hasKey "max" field_def then
    if base_type ∈ (["int", "float", "timestamp"] : List String) then
      match alookup "min" field_def, alookup "max" field_def with
      | some min_val, some max_val =>
          match pyGt min_val max_val with
          | .error e => .error e
          | .ok true => .error (.schemaError
              ("Field \x27" ++ field_name ++ "\x27 in " ++ entity_type ++
                " has min (" ++ pyStr min_val ++ ") > max (" ++ pyStr max_val ++
                "). Min must be less than or equal to max."))
          | .ok false => .ok ()
      | _, _ => .ok ()
    else
      .error (.schemaError
        ("Field \x27" ++ field_name ++ "\x27 in " ++ entity_type ++
          " has min/max constraint but type is \x27" ++ pyStr field_type ++
          "\x27. Min/max constraints are only valid for numeric types (int, float, timestamp)."))
  else .ok ()

/-- `validate_field_constraints` (validator.py:43-86).  The error-match
chains model Python exception propagation out of each block. -/
def validate_field_constraints (field_name : String) (field_def : AList)
    (entity_type : String) : Except PyError Unit :=
  let field_type := (alookup "type" field_def).getD (.vStr "")
  match pyRstrip field_type with
  | .error e => .error e
  | .ok base_type =>
      match check_enum_constraint field_name field_def entity_type field_type base_type with
      | .error e => .error e
      | .ok _ =>
          match check_regex_constraint field_name field_def entity_type field_type base_type with
          | .error e => .error e
          | .ok _ =>
              check_minmax_constraint field_name field_def entity_type field_type base_type

/-- Every message of `validate_relationships` starts
`f"Relationship #{i+1} ..."`; this helper makes that 1-indexed naming
structural. -/
def relMsg (i : Nat) (rest : String) : String :=
  "Relationship #" ++ toString (i + 1) ++ rest

/-- Inner loop of `validate_relationships` over a relationship's edge
names (validator.py:129-133). -/
def check_rel_edges (edgeNames : List String) (i : Nat) :
    List Value → Except PyError Unit
  | [] => .ok ()
  | e :: rest =>
      match pySetContains edgeNames e with
      | .error err => .error err
      | .ok true => check_rel_edges edgeNames i rest
      | .ok false => .error (.schemaError
          (relMsg i (" references undefined edge type \x27" ++ pyStr e ++ "\x27")))

/-- The indexed loop of `validate_relationships` (validator.py:97-133),
carrying the 0-based position `i` (messages use `i + 1`). -/
def check_rels (nodeNames edgeNames : List String) :
    Nat → List Value → Except PyError Unit
  | _, [] => .ok ()
  | i, rel :: rest =>
      match pyContains "source" rel with
      | .error e => .error e
      | .ok false => .error (.schemaError (relMsg i " missing \x27source\x27 field"))
      | .ok true =>
        match pyContains "target" rel with
        | .error e => .error e
        | .ok false => .error (.schemaError (relMsg i " missing \x27target\x27 field"))
        | .ok true =>
          match pyContains "edges" rel with
          | .error e => .error e
          | .ok false => .error (.schemaError (relMsg i " missing \x27edges\x27 field"))
          | .ok true =>
            match pyGetItem rel "source", pyGetItem rel "target", pyGetItem rel "edges" with
            | .error e, _, _ => .error e
            | .ok _, .error e, _ => .error e
            | .ok _, .ok _, .error e => .error e
            | .ok source, .ok target, .ok rel_edges =>
              match pySetContains nodeNames source with
              | .error e => .error e
              | .ok false => .error (.schemaError
                  (relMsg i (" references undefined source node \x27" ++ pyStr source ++ "\x27")))
              | .ok true =>
                match pySetContains nodeNames target with
                | .error e => .error e
                | .ok false => .error (.schemaError
                    (relMsg i (" references undefined target node \x27" ++ pyStr target ++ "\x27")))
                | .ok true =>
                  match rel_edges with
                  | .vList (e0 :: es) =>
                      match check_rel_edges edgeNames i (e0 :: es) with
                      | .error e => .error e
                      | .ok _ => check_rels nodeNames edgeNames (i + 1) rest
                  | _ => .error (.schemaError
                      (relMsg i " must have non-empty \x27edges\x27 list"))

/-- `validate_relationships` (validator.py:89-133). -/
def validate_relationships (schema : AList) : Except PyError Unit :=
  if hasKey "relationships" schema then
    match pyKeys ((alookup "nodes" schema).getD (.vDict [])) with
    | .error e => .error e
    | .ok nodeNames =>
      match pyKeys ((alookup "edges" schema).getD (.vDict [])) with
      | .error e => .error e
      | .ok edgeNames =>
        match pyIter ((alookup "relationships" schema).getD .vNull) with
        | .error e => .error e
        | .ok rels => check_rels nodeNames edgeNames 0 rels
  else .ok ()

/-- Per-field loop shared by the nodes and edges sections
(validator.py:183-189 and 206-212); `kindLower` is `"node"`/`"edge"`. -/
def check_fields (kindLower entityName : String) :
    AList → Except PyError Unit
  | [] => .ok ()
  | (field_name, field_def) :: rest =>
      match field_def with
      | .vDict fd =>
          let entity := kindLower ++ " \x27" ++ entityName ++ "\x27"
          match validate_field_type field_name fd entity with
          | .error e => .error e
          | .ok _ =>
              match validate_field_constraints field_name fd entity with
              | .error e => .error e
              | .ok _ => check_fields kindLower entityName rest
      | _ => .error (.schemaError
          ("Field \x27" ++ field_name ++ "\x27 in " ++ kindLower ++
            " \x27" ++ entityName ++ "\x27 must be a dictionary"))

/-- Per-entity loop shared by the nodes and edges sections
(validator.py:173-189 and 196-212); `kindCap` is `"Node"`/`"Edge"`. -/
def check_entities (kindCap kindLower : String) :
    AList → Except PyError Unit
  | [] => .ok ()
  | (entityName, entityDef) :: rest =>
      match entityDef with
      | .vDict ed =>
          match alookup "fields" ed with
          | none => .error (.schemaError
              (kindCap ++ " \x27" ++ entityName ++ "\x27 must have \x27fields\x27 property"))
          | some (.vDict fields) =>
              match check_fields kindLower entityName fields with
              | .error e => .error e
              | .ok _ => check_entities kindCap kindLower rest
          | some _ => .error (.schemaError
              (kindCap ++ " \x27" ++ entityName ++ "\x27 \x27fields\x27 must be a dictionary"))
      | _ => .error (.schemaError
          (kindCap ++ " \x27" ++ entityName ++ "\x27 definition must be a dictionary"))

/-- One `nodes`/`edges` section check (validator.py:169-171 / 192-194):
absent sections are skipped, non-dict sections fail. -/
def check_section (d : AList) (key kindCap kindLower : String) :
    Except PyError Unit :=
  match alookup key d with
  | none => .ok ()
  | some (.vDict entities) => check_entities kindCap kindLower entities
  | some _ => .error (.schemaError
      ("\x27" ++ key ++ "\x27 section must be a dictionary"))

/-- The body of `validate_schema` after the top-level dict check
(validator.py:161-215). -/
def validate_schema_body (d : AList) : Except PyError Unit :=
  if ¬ hasKey "version" d then
    .error (.schemaError "Schema must have a \x27version\x27 field")
  else if ¬ isInstInt ((alookup "version" d).getD .vNull) then
    .error (.schemaError "Schema \x27version\x27 must be an integer")
  else
    match check_section d "nodes" "Node" "node" with
    | .error e => .error e
    | .ok _ =>
        match check_section d "edges" "Edge" "edge" with
        | .error e => .error e
        | .ok _ => validate_relationships d

/-- `validate_schema` (validator.py:136-217) from the parsed document on:
file existence and YAML parsing (lines 149-156) are I/O and sit outside
the embedding; every claim concerns the already-parsed document.  On
success the function returns its input document (line 217). -/
def validate_schema (schema : Value) : Except PyError Value :=
  match schema with
  | .vDict d =>
      match validate_schema_body d with
      | .error e => .error e
      | .ok _ => .ok schema
  | _ => .error (.schemaError "Schema must be a dictionary")

/-! ## `codegen/go/generate.py` (field/type mapper part) -/

/-- Substring test (`pat in s` for strings), as a Bool. -/
def hasSubB (s pat : String) : Bool := decide (pat.data <:+: s.data)

/-- The two literal IPv4 regex shapes of `is_ipv4_regex`
(generate.py:43-46). -/
def ipv4_patterns : List String :=
  ["^(?:[0-9]\x7b1,3\x7d\\.)\x7b3\x7d[0-9]\x7b1,3\x7d$",
   "^(?:[0-9]+\\.)\x7b3\x7d[0-9]+$"]

/-- Python `s.replace("\\\\", "\\")`: collapse doubled backslashes,
left to right, non-overlapping. -/
def collapseDoubleBackslash : List Char → List Char
  | '\\' :: '\\' :: rest => '\\' :: collapseDoubleBackslash rest
  | c :: rest => c :: collapseDoubleBackslash rest
  | [] => []

/-- `is_ipv4_regex` (generate.py:41-48): normalise doubled backslashes,
then test whether either known IPv4 pattern occurs as a substring. -/
def is_ipv4_regex (regex : String) : Bool :=
  let normalized := String.mk (collapseDoubleBackslash regex.data)
  ipv4_patterns.any (fun pattern => hasSubB normalized pattern)

/-- Python `" ".join(v)`: lists must contain only strings (else
`TypeError`), strings join their characters, dicts join their keys;
everything else is not iterable. -/
def pyJoinSpace : Value → Except PyError String
  | .vList l =>
      let rec collect : List Value → Except PyError (List String)
        | [] => .ok []
        | .vStr s :: rest =>
            match collect rest with
            | .error e => .error e
            | .ok ss => .ok (s :: ss)
        | _ :: _ => .error .typeError
      match collect l with
      | .error e => .error e
      | .ok ss => .ok (joinSep " " ss)
  | .vStr s => .ok (joinSep " " (s.data.map (fun c => String.mk [c])))
  | .vDict d => .ok (joinSep " " (dictKeys d))
  | _ => .error .typeError

/-- The enum branch of `validation_tag_from_field` (generate.py:58-62). -/
def go_enum_tags (field_def : AList) : Except PyError (List String) :=
  if hasKey "enum" field_def then
    match pyJoinSpace ((alookup "enum" field_def).getD .vNull) with
    | .error e => .error e
    | .ok enum_str => .ok ["oneof=" ++ enum_str]
  else .ok []

/-- The regex branch of `validation_tag_from_field` (generate.py:64-74):
recognized patterns map to a built-in validator, anything else produces
no tag at all.  Calling the string heuristics on a non-string regex value
raises `AttributeError`. -/
def go_regex_tags (field_def : AList) : Except PyError (List String) :=
  if hasKey "regex" field_def && !hasKey "enum" field_def then
    match (alookup "regex" field_def).getD .vNull with
    | .vStr regex =>
        if is_ipv4_regex regex then .ok ["ipv4"]
        else if hasSubB (strToLower regex) "email" then .ok ["email"]
        else if strStartsWith regex "^https?://" then .ok ["url"]
        else .ok []
    | _ => .error .attributeError
  else .ok []

/-- The min branch of `validation_tag_from_field` (generate.py:77-78). -/
def go_min_tags (field_def : AList) : List String :=
  match alookup "min" field_def with
  | some v => ["min=" ++ pyStr v]
  | none => []

/-- The max branch of `validation_tag_from_field` (generate.py:79-80). -/
def go_max_tags (field_def : AList) : List String :=
  match alookup "max" field_def with
  | some v => ["max=" ++ pyStr v]
  | none => []

/-- The `tags` list built by `validation_tag_from_field`
(generate.py:51-80), in source append order.  The unused
`base_type = yaml_type.rstrip("[]")` of line 54 is kept because it can
raise `AttributeError` on a non-string type value. -/
def go_validation_tags (field_def : AList) : Except PyError (List String) :=
  let yaml_type := (alookup "type" field_def).getD (.vStr "string")
  match pyRstrip yaml_type with
  | .error e => .error e
  | .ok _base_type =>
      match go_enum_tags field_def with
      | .error e => .error e
      | .ok etags =>
          match go_regex_tags field_def with
          | .error e => .error e
          | .ok rtags =>
              .ok (["omitempty"] ++ etags ++ rtags ++
                    go_min_tags field_def ++ go_max_tags field_def)

/-- `validation_tag_from_field` (generate.py:51-84): the final struct-tag
string; empty when only `omitempty` was collected. -/
def validation_tag_from_field (field_def : AList) : Except PyError String :=
  match go_validation_tags field_def with
  | .error e => .error e
  | .ok tags =>
      if tags.length > 1 then
        .ok ("validate:\x22" ++ joinSep "," tags ++ "\x22")
      else .ok ""

/-! ## `codegen/python/generate.py` (field mapper part) -/

/-- `python_type_from_yaml` (python/generate.py:19-33), written by
recursion on the reversed character list: a trailing `[]` (reversed: the
characters `]`, `[`) wraps the recursively mapped base type in `list[...]`,
mirroring the `endswith("[]")` / `[:-2]` recursion of the source. -/
def python_type_go : List Char → String
  | ']' :: '[' :: rest => "list[" ++ python_type_go rest ++ "]"
  | rest =>
      let t := String.mk rest.reverse
      if t = "string" then "str"
      else if t = "int" then "int"
      else if t = "float" then "float"
      else if t = "boolean" then "bool"
      else if t = "timestamp" then "float"
      else "str"

/-- `python_type_from_yaml` on a string. -/
def python_type_from_yaml (yaml_type : String) : String :=
  python_type_go yaml_type.data.reverse

/-- The result dict of `prepare_field_for_pydantic`
(python/generate.py:63-67). -/
structure PreparedField where
  python_type : String
  field_args : String
  description : Value

/-- The `Literal[...]` computation of `prepare_field_for_pydantic`
(python/generate.py:56-59). -/
def pydantic_enum_literal (field_def : AList) : Except PyError (Option String) :=
  if hasKey "enum" field_def then
    match pyIter ((alookup "enum" field_def).getD .vNull) with
    | .error e => .error e
    | .ok vs => .ok (some (joinSep ", " (vs.map pyRepr)))
  else .ok none

/-- `prepare_field_for_pydantic` (python/generate.py:36-67).  The first
`Field` argument is always the literal `"None"` (line 43); keyword
arguments follow in source order (description, ge, le).  A non-string
type value raises `AttributeError` inside `python_type_from_yaml`. -/
def prepare_field_for_pydantic (_field_name : String) (field_def : AList) :
    Except PyError PreparedField :=
  match (alookup "type" field_def).getD (.vStr "string") with
  | .vStr yaml_type =>
      let base_python_type := python_type_from_yaml yaml_type
      let description := (alookup "description" field_def).getD (.vStr "")
      let field_kwargs :=
        (if pyTruthy description then ["description=" ++ pyRepr description] else []) ++
        (match alookup "min" field_def with
         | some v => ["ge=" ++ pyStr v]
         | none => []) ++
        (match alookup "max" field_def with
         | some v => ["le=" ++ pyStr v]
         | none => [])
      match pydantic_enum_literal field_def with
      | .error e => .error e
      | .ok enumLit =>
          let python_type :=
            match enumLit with
            | some enum_str => "Literal[" ++ enum_str ++ "]"
            | none => base_python_type
          .ok { python_type := python_type
                field_args := joinSep ", " ("None" :: field_kwargs)
                description := description }
  | _ => .error .attributeError

/-- Modelled from the spec: the runtime acceptance behaviour of a
generated pydantic model field such as `Target.risk_score`
(`float | None = Field(None, ge=0.0, le=10.0)` in
`v2/python/pentagi_taxonomy/nodes.py`).  The pydantic library and the
Jinja2 template that emit this behaviour are not part of the embedded
sources; per the spec, a generated field is optional with default `None`,
so an omitted value is accepted, and `ge`/`le` bounds are enforced only
on a value actually supplied. -/
def pydanticOptionalNumericAccepts (ge le : Option ℚ) : Option Value → Bool
  | none => true
  | some v =>
      match numVal v with
      | some q =>
          (match ge with | some g => decide (g ≤ q) | none => true) &&
          (match le with | some l => decide (q ≤ l) | none => true)
      | none => false

/-- The generated `Target.risk_score` constraint
(`Field(None, ge=0.0, le=10.0)`, nodes.py:16). -/
def riskScoreAccepts : Option Value → Bool :=
  pydanticOptionalNumericAccepts (some 0) (some 10)

/-! ## Infrastructure for the claim statements -/

/-- `pat` occurs as a contiguous substring of `s`. -/
def hasSub (s pat : String) : Prop := pat.data <:+: s.data

instance (s pat : String) : Decidable (hasSub s pat) :=
  inferInstanceAs (Decidable (pat.data <:+: s.data))

lemma hasSub_refl (s : String) : hasSub s s := ⟨[], [], by simp⟩

lemma hasSub_appendL {a b pat : String} (h : hasSub b pat) : hasSub (a ++ b) pat := by
  obtain ⟨x, y, hxy⟩ := h
  exact ⟨a.data ++ x, y, by simp [String.data_append, hxy, List.append_assoc]⟩

lemma hasSub_appendR {a b pat : String} (h : hasSub a pat) : hasSub (a ++ b) pat := by
  obtain ⟨x, y, hxy⟩ := h
  refine ⟨x, y ++ b.data, ?_⟩
  simp only [String.data_append, ← hxy, List.append_assoc]

/-- The claim's "base type after stripping an array suffix, if any":
the exact computation of `validate_field_type`. -/
def stripArraySuffix (t : String) : String :=
  if strEndsWith t "[]" then strDropRight t 2 else t

/-- The smallest document exercising the per-field validators through
`validate_schema`: version 1 and a single node with a single field. -/
def minimalNodeDoc (nname fn : String) (fd : AList) : Value :=
  .vDict [("version", .vInt 1),
          ("nodes", .vDict [(nname, .vDict [("fields", .vDict [(fn, .vDict fd)])])])]

lemma pyGt_num {a b : Value} {x y : ℚ} (ha : numVal a = some x) (hb : numVal b = some y) :
    pyGt a b = .ok (decide (x > y)) := by
  cases a <;> cases b <;> simp_all [numVal, pyGt]

/-- On the minimal one-field document, `validate_schema` reduces to the
two per-field validators. -/
lemma validate_schema_minimal (nname fn : String) (fd : AList) :
    validate_schema (minimalNodeDoc nname fn fd) =
      match validate_field_type fn fd ("node \x27" ++ nname ++ "\x27") with
      | .error e => .error e
      | .ok _ =>
          match validate_field_constraints fn fd ("node \x27" ++ nname ++ "\x27") with
          | .error e => .error e
          | .ok _ => .ok (minimalNodeDoc nname fn fd) := by
  cases hv : validate_field_type fn fd ("node \x27" ++ nname ++ "\x27") with
  | error e =>
      simp [minimalNodeDoc, validate_schema, validate_schema_body, hasKey, alookup,
        isInstInt, check_section, check_entities, check_fields, hv]
  | ok u =>
      cases hc : validate_field_constraints fn fd ("node \x27" ++ nname ++ "\x27") with
      | error e =>
          simp [minimalNodeDoc, validate_schema, validate_schema_body, hasKey, alookup,
            isInstInt, check_section, check_entities, check_fields, hv, hc]
      | ok u2 =>
          simp [minimalNodeDoc, validate_schema, validate_schema_body, hasKey, alookup,
            isInstInt, check_section, check_entities, check_fields, hv, hc,
            validate_relationships]

/-! ## Claims -/

/-- With the `type` key bound to a string, `validate_field_constraints`
reduces to its three constraint blocks at that type. -/
lemma vfc_unfold (fn entity : String) (fd : AList) (t : String)
    (ht : alookup "type" fd = some (.vStr t)) :
    validate_field_constraints fn fd entity =
      match check_enum_constraint fn fd entity (.vStr t) (rstripBrackets t) with
      | .error e => .error e
      | .ok _ =>
          match check_regex_constraint fn fd entity (.vStr t) (rstripBrackets t) with
          | .error e => .error e
          | .ok _ =>
              check_minmax_constraint fn fd entity (.vStr t) (rstripBrackets t) := by
  simp [validate_field_constraints, ht, pyRstrip]

/-- Every exit of the enum block is success or a `SchemaValidationError`. -/
lemma check_enum_cases (fn : String) (fd : AList) (e : String) (ft : Value) (bt : String) :
    check_enum_constraint fn fd e ft bt = .ok () ∨
    ∃ m, check_enum_constraint fn fd e ft bt = .error (.schemaError m) := by
  unfold check_enum_constraint
  split_ifs with h1 h2
  · exact Or.inr ⟨_, rfl⟩
  · cases hv : (alookup "enum" fd).getD .vNull with
    | vList l =>
        cases l with
        | nil => exact Or.inr ⟨_, rfl⟩
        | cons a l2 => exact Or.inl rfl
    | vNull => exact Or.inr ⟨_, rfl⟩
    | vBool b => exact Or.inr ⟨_, rfl⟩
    | vInt n => exact Or.inr ⟨_, rfl⟩
    | vFloat q => exact Or.inr ⟨_, rfl⟩
    | vStr s => exact Or.inr ⟨_, rfl⟩
    | vDict d => exact Or.inr ⟨_, rfl⟩
  · exact Or.inl rfl

/-- Every exit of the regex block is success or a
`SchemaValidationError`. -/
lemma check_regex_cases (fn : String) (fd : AList) (e : String) (ft : Value) (bt : String) :
    check_regex_constraint fn fd e ft bt = .ok () ∨
    ∃ m, check_regex_constraint fn fd e ft bt = .error (.schemaError m) := by
  unfold check_regex_constraint
  split_ifs
  · exact Or.inr ⟨_, rfl⟩
  · exact Or.inl rfl
  · exact Or.inl rfl

/-- Claim C2.  A field whose `type` string, after stripping an array
suffix if any, lies in the supported primitive set passes the type check;
otherwise `validate_field_type` fails with a `SchemaValidationError`
whose message contains the field name, the entity, and every supported
type name, and `validate_schema` on a document containing such a field
fails with that same message. -/
theorem C2_unsupported_type (fn entity nname : String) (fd : AList) (t : String)
    (ht : alookup "type" fd = some (.vStr t)) :
    (stripArraySuffix t ∈ SUPPORTED_PRIMITIVE_TYPES →
      validate_field_type fn fd entity = .ok ()) ∧
    (stripArraySuffix t ∉ SUPPORTED_PRIMITIVE_TYPES →
      (∃ msg, validate_field_type fn fd entity = .error (.schemaError msg) ∧
        hasSub msg fn ∧ hasSub msg entity ∧
        ∀ p ∈ SUPPORTED_PRIMITIVE_TYPES, hasSub msg p) ∧
      (∃ msg, validate_schema (minimalNodeDoc nname fn fd) = .error (.schemaError msg) ∧
        hasSub msg fn ∧ hasSub msg ("node \x27" ++ nname ++ "\x27") ∧
        ∀ p ∈ SUPPORTED_PRIMITIVE_TYPES, hasSub msg p)) := by
  have main : ∀ ent : String, stripArraySuffix t ∉ SUPPORTED_PRIMITIVE_TYPES →
      ∃ msg, validate_field_type fn fd ent = .error (.schemaError msg) ∧
        hasSub msg fn ∧ hasSub msg ent ∧
        ∀ p ∈ SUPPORTED_PRIMITIVE_TYPES, hasSub msg p := by
    intro ent hout
    by_cases he : strEndsWith t "[]" = true
    · simp [stripArraySuffix, he] at hout
      have heq : validate_field_type fn fd ent = .error (.schemaError
          ("Field \x27" ++ fn ++ "\x27 in " ++ ent ++
            " has unsupported array base type \x27" ++ strDropRight t 2 ++
            "\x27. Supported types: " ++ supportedJoined)) := by
        simp only [validate_field_type, ht]
        simp [he, hout]
      refine ⟨_, heq, ?_, ?_, ?_⟩
      · exact hasSub_appendR (hasSub_appendR (hasSub_appendR
          (hasSub_appendR (hasSub_appendR (hasSub_appendR
            (hasSub_appendL (hasSub_refl fn)))))))
      · exact hasSub_appendR (hasSub_appendR (hasSub_appendR
          (hasSub_appendR (hasSub_appendL (hasSub_refl ent)))))
      · intro p hp
        simp only [SUPPORTED_PRIMITIVE_TYPES, List.mem_cons,
          List.not_mem_nil, or_false] at hp
        rcases hp with rfl | rfl | rfl | rfl | rfl <;>
          exact hasSub_appendL (by decide)
    · simp [stripArraySuffix, he] at hout
      have heq : validate_field_type fn fd ent = .error (.schemaError
          ("Field \x27" ++ fn ++ "\x27 in " ++ ent ++
            " has unsupported type \x27" ++ t ++
            "\x27. Supported types: " ++ supportedJoined ++
            " and arrays of these (e.g., \x27string[]\x27)")) := by
        simp only [validate_field_type, ht]
        simp [he, hout]
      refine ⟨_, heq, ?_, ?_, ?_⟩
      · exact hasSub_appendR (hasSub_appendR (hasSub_appendR
          (hasSub_appendR (hasSub_appendR (hasSub_appendR
            (hasSub_appendR (hasSub_appendL (hasSub_refl fn))))))))
      · exact hasSub_appendR (hasSub_appendR (hasSub_appendR
          (hasSub_appendR (hasSub_appendR
            (hasSub_appendL (hasSub_refl ent))))))
      · intro p hp
        simp only [SUPPORTED_PRIMITIVE_TYPES, List.mem_cons,
          List.not_mem_nil, or_false] at hp
        rcases hp with rfl | rfl | rfl | rfl | rfl <;>
          exact hasSub_appendR (hasSub_appendL (by decide))
  constructor
  · intro hin
    by_cases he : strEndsWith t "[]" = true
    · simp [stripArraySuffix, he] at hin
      simp only [validate_field_type, ht]
      simp [he, hin]
    · simp [stripArraySuffix, he] at hin
      simp only [validate_field_type, ht]
      simp [he, hin]
  · intro hout
    refine ⟨main entity hout, ?_⟩
    obtain ⟨msg, heq, h1, h2, h3⟩ := main ("node \x27" ++ nname ++ "\x27") hout
    exact ⟨msg, by rw [validate_schema_minimal, heq], h1, h2, h3⟩

/-- Claim C2: witness instantiating the theorem with a supported array
type and with an unsupported type. -/
theorem C2_witness :
    validate_field_type "f" [("type", .vStr "string[]")] "node \x27n\x27" = .ok () ∧
    ∃ msg, validate_field_type "g" [("type", .vStr "datetime")] "node \x27n\x27" =
      .error (.schemaError msg) ∧ hasSub msg "g" ∧ hasSub msg "node \x27n\x27" ∧
      ∀ p ∈ SUPPORTED_PRIMITIVE_TYPES, hasSub msg p :=
  ⟨(C2_unsupported_type "f" "node \x27n\x27" "n" [("type", .vStr "string[]")] "string[]" rfl).1
      (by decide),
   ((C2_unsupported_type "g" "node \x27n\x27" "n" [("type", .vStr "datetime")] "datetime" rfl).2
      (by decide)).1⟩

/-- With a string `type`, `validate_field_type` exits with success or a
`SchemaValidationError`, never a dynamic-typing exception. -/
lemma vft_cases (fn entity : String) (fd : AList) (t : String)
    (ht : alookup "type" fd = some (.vStr t)) :
    validate_field_type fn fd entity = .ok () ∨
    ∃ m, validate_field_type fn fd entity = .error (.schemaError m) := by
  by_cases he : strEndsWith t "[]" = true
  · by_cases hm : strDropRight t 2 ∈ SUPPORTED_PRIMITIVE_TYPES
    · exact Or.inl (by simp [validate_field_type, ht, he, hm])
    · refine Or.inr ⟨"Field \x27" ++ fn ++ "\x27 in " ++ entity ++
        " has unsupported array base type \x27" ++ strDropRight t 2 ++
        "\x27. Supported types: " ++ supportedJoined, ?_⟩
      simp [validate_field_type, ht, he, hm]
  · by_cases hm : t ∈ SUPPORTED_PRIMITIVE_TYPES
    · exact Or.inl (by simp [validate_field_type, ht, he, hm])
    · refine Or.inr ⟨"Field \x27" ++ fn ++ "\x27 in " ++ entity ++
        " has unsupported type \x27" ++ t ++
        "\x27. Supported types: " ++ supportedJoined ++
        " and arrays of these (e.g., \x27string[]\x27)", ?_⟩
      simp [validate_field_type, ht, he, hm]

/-- If the constraint checks on the single field of the minimal document
raise a `SchemaValidationError`, so does `validate_schema` on it (either
through the type check or through the constraint checks). -/
lemma vschema_minimal_schemaError (nname fn : String) (fd : AList) (t : String)
    (ht : alookup "type" fd = some (.vStr t))
    (hvfc : ∃ m, validate_field_constraints fn fd ("node \x27" ++ nname ++ "\x27") =
      .error (.schemaError m)) :
    ∃ m, validate_schema (minimalNodeDoc nname fn fd) = .error (.schemaError m) := by
  rcases vft_cases fn ("node \x27" ++ nname ++ "\x27") fd t ht with hok | ⟨m, hm⟩
  · obtain ⟨m2, hm2⟩ := hvfc
    exact ⟨m2, by rw [validate_schema_minimal, hok, hm2]⟩
  · exact ⟨m, by rw [validate_schema_minimal, hm]⟩

/-- Claim C3 (amended).  The claim as frozen also requires every enum
element to be a string literal; the code checks only that the enum value
is a non-empty list, so a non-empty enum of non-strings is accepted (see
`C3_counterexample`).  Amended statement: a field may carry `enum` only
when its base type (all trailing brackets stripped) is `string` and the
value is a non-empty list, and may carry `regex` only when the base type
is `string`; each violation makes `validate_field_constraints`, and
`validate_schema` on a document containing the field, fail with a
`SchemaValidationError`. -/
theorem C3_enum_regex_constraints (fn entity nname : String) (fd : AList) (t : String)
    (ht : alookup "type" fd = some (.vStr t)) :
    (hasKey "enum" fd = true → rstripBrackets t ≠ "string" →
      (∃ m, validate_field_constraints fn fd entity = .error (.schemaError m)) ∧
      (∃ m, validate_schema (minimalNodeDoc nname fn fd) = .error (.schemaError m))) ∧
    (∀ ev, alookup "enum" fd = some ev → (∀ l, ev = .vList l → l = []) →
      (∃ m, validate_field_constraints fn fd entity = .error (.schemaError m)) ∧
      (∃ m, validate_schema (minimalNodeDoc nname fn fd) = .error (.schemaError m))) ∧
    (hasKey "regex" fd = true → rstripBrackets t ≠ "string" →
      (∃ m, validate_field_constraints fn fd entity = .error (.schemaError m)) ∧
      (∃ m, validate_schema (minimalNodeDoc nname fn fd) = .error (.schemaError m))) := by
  refine ⟨?_, ?_, ?_⟩
  · intro hkey hbase
    have key : ∀ ent : String, ∃ m,
        validate_field_constraints fn fd ent = .error (.schemaError m) := by
      intro ent
      refine ⟨"Field \x27" ++ fn ++ "\x27 in " ++ ent ++
        " has \x27enum\x27 constraint but type is \x27" ++ pyStr (.vStr t) ++
        "\x27. Enum constraints are only valid for \x27string\x27 type.", ?_⟩
      rw [vfc_unfold fn ent fd t ht]
      simp [check_enum_constraint, hkey, hbase]
    exact ⟨key entity, vschema_minimal_schemaError nname fn fd t ht (key _)⟩
  · intro ev hev hnl
    have hkey : hasKey "enum" fd = true := by simp [hasKey, hev]
    have key : ∀ ent : String, ∃ m,
        validate_field_constraints fn fd ent = .error (.schemaError m) := by
      intro ent
      by_cases hbase : rstripBrackets t = "string"
      · refine ⟨"Field \x27" ++ fn ++ "\x27 in " ++ ent ++
          " has invalid \x27enum\x27 constraint. Must be a non-empty list.", ?_⟩
        rw [vfc_unfold fn ent fd t ht]
        cases ev with
        | vList l =>
            have : l = [] := hnl l rfl
            subst this
            simp [check_enum_constraint, hkey, hbase, hev]
        | vNull => simp [check_enum_constraint, hkey, hbase, hev]
        | vBool b => simp [check_enum_constraint, hkey, hbase, hev]
        | vInt n => simp [check_enum_constraint, hkey, hbase, hev]
        | vFloat q => simp [check_enum_constraint, hkey, hbase, hev]
        | vStr s => simp [check_enum_constraint, hkey, hbase, hev]
        | vDict d => simp [check_enum_constraint, hkey, hbase, hev]
      · refine ⟨"Field \x27" ++ fn ++ "\x27 in " ++ ent ++
          " has \x27enum\x27 constraint but type is \x27" ++ pyStr (.vStr t) ++
          "\x27. Enum constraints are only valid for \x27string\x27 type.", ?_⟩
        rw [vfc_unfold fn ent fd t ht]
        simp [check_enum_constraint, hkey, hbase]
    exact ⟨key entity, vschema_minimal_schemaError nname fn fd t ht (key _)⟩
  · intro hkey hbase
    have key : ∀ ent : String, ∃ m,
        validate_field_constraints fn fd ent = .error (.schemaError m) := by
      intro ent
      rcases check_enum_cases fn fd ent (.vStr t) (rstripBrackets t) with hok | ⟨m, hm⟩
      · refine ⟨"Field \x27" ++ fn ++ "\x27 in " ++ ent ++
          " has \x27regex\x27 constraint but type is \x27" ++ pyStr (.vStr t) ++
          "\x27. Regex constraints are only valid for \x27string\x27 type.", ?_⟩
        rw [vfc_unfold fn ent fd t ht, hok]
        simp [check_regex_constraint, hkey, hbase]
      · exact ⟨m, by rw [vfc_unfold fn ent fd t ht, hm]⟩
    exact ⟨key entity, vschema_minimal_schemaError nname fn fd t ht (key _)⟩

/-- Claim C3: counterexample to the frozen claim.  A `string` field whose
enum is the non-empty list `[1]` — not a list of string literals — passes
`validate_schema` unrejected. -/
theorem C3_counterexample :
    validate_schema (minimalNodeDoc "n" "f"
      [("type", .vStr "string"), ("enum", .vList [.vInt 1])]) =
    .ok (minimalNodeDoc "n" "f"
      [("type", .vStr "string"), ("enum", .vList [.vInt 1])]) := rfl

/-- Claim C3: witness instantiating the amended theorem at an `int` field
carrying an enum. -/
theorem C3_witness :
    (∃ m, validate_field_constraints "f"
        [("type", .vStr "int"), ("enum", .vList [.vStr "a"])] "node \x27n\x27" =
      .error (.schemaError m)) ∧
    (∃ m, validate_schema (minimalNodeDoc "n" "f"
        [("type", .vStr "int"), ("enum", .vList [.vStr "a"])]) =
      .error (.schemaError m)) :=
  (C3_enum_regex_constraints "f" "node \x27n\x27" "n"
      [("type", .vStr "int"), ("enum", .vList [.vStr "a"])] "int" rfl).1
    rfl (by decide)

/-- Claim C4.  A field with a `min` or `max` constraint on a non-numeric
base type makes validation fail with a `SchemaValidationError` (both at
the constraint checker and through `validate_schema`); on a numeric base
type with both bounds present and numeric (and no enum/regex constraint
masking the range check), validation fails with the range-order error
exactly when min > max and passes when min ≤ max. -/
theorem C4_range_constraints (fn entity nname : String) (fd : AList) (t : String)
    (ht : alookup "type" fd = some (.vStr t)) :
    ((hasKey "min" fd || hasKey "max" fd) = true →
      rstripBrackets t ∉ (["int", "float", "timestamp"] : List String) →
      (∃ m, validate_field_constraints fn fd entity = .error (.schemaError m)) ∧
      (∃ m, validate_schema (minimalNodeDoc nname fn fd) = .error (.schemaError m))) ∧
    (∀ mn mx qm qM, rstripBrackets t ∈ (["int", "float", "timestamp"] : List String) →
      hasKey "enum" fd = false → hasKey "regex" fd = false →
      alookup "min" fd = some mn → alookup "max" fd = some mx →
      numVal mn = some qm → numVal mx = some qM →
      (qm > qM → validate_field_constraints fn fd entity = .error (.schemaError
          ("Field \x27" ++ fn ++ "\x27 in " ++ entity ++ " has min (" ++ pyStr mn ++
            ") > max (" ++ pyStr mx ++ "). Min must be less than or equal to max."))) ∧
      (qm ≤ qM → validate_field_constraints fn fd entity = .ok ())) := by
  constructor
  · intro hkey hbase
    have key : ∀ ent : String, ∃ m,
        validate_field_constraints fn fd ent = .error (.schemaError m) := by
      intro ent
      rcases check_enum_cases fn fd ent (.vStr t) (rstripBrackets t) with hok | ⟨m, hm⟩
      · rcases check_regex_cases fn fd ent (.vStr t) (rstripBrackets t) with hok2 | ⟨m, hm2⟩
        · refine ⟨"Field \x27" ++ fn ++ "\x27 in " ++ ent ++
            " has min/max constraint but type is \x27" ++ pyStr (.vStr t) ++
            "\x27. Min/max constraints are only valid for numeric types (int, float, timestamp).", ?_⟩
          rw [vfc_unfold fn ent fd t ht, hok, hok2]
          simp [check_minmax_constraint, hkey, hbase]
        · exact ⟨m, by rw [vfc_unfold fn ent fd t ht, hok, hm2]⟩
      · exact ⟨m, by rw [vfc_unfold fn ent fd t ht, hm]⟩
    exact ⟨key entity, vschema_minimal_schemaError nname fn fd t ht (key _)⟩
  · intro mn mx qm qM hbase hen hre hmn hmx hqm hqM
    have hok : check_enum_constraint fn fd entity (.vStr t) (rstripBrackets t) = .ok () := by
      simp [check_enum_constraint, hen]
    have hok2 : check_regex_constraint fn fd entity (.vStr t) (rstripBrackets t) = .ok () := by
      simp [check_regex_constraint, hre]
    have hminkey : hasKey "min" fd = true := by simp [hasKey, hmn]
    constructor
    · intro hgt
      rw [vfc_unfold fn entity fd t ht, hok, hok2]
      simp [check_minmax_constraint, hminkey, hbase, hmn, hmx,
        pyGt_num hqm hqM, hgt]
    · intro hle
      rw [vfc_unfold fn entity fd t ht, hok, hok2]
      simp [check_minmax_constraint, hminkey, hbase, hmn, hmx,
        pyGt_num hqm hqM, not_lt.2 hle]

/-- Claim C4: witness instantiating the theorem at a float field with
bounds out of order and at one with bounds in order. -/
theorem C4_witness :
    validate_field_constraints "f"
        [("type", .vStr "float"), ("min", .vInt 5), ("max", .vInt 1)] "node \x27n\x27" =
      .error (.schemaError
        ("Field \x27f\x27 in node \x27n\x27 has min (5) > max (1). " ++
          "Min must be less than or equal to max.")) ∧
    validate_field_constraints "g"
        [("type", .vStr "float"), ("min", .vInt 1), ("max", .vInt 5)] "node \x27n\x27" =
      .ok () := by
  constructor
  · have h := ((C4_range_constraints "f" "node \x27n\x27" "n"
      [("type", .vStr "float"), ("min", .vInt 5), ("max", .vInt 1)] "float" rfl).2
      (.vInt 5) (.vInt 1) 5 1 (by decide) rfl rfl rfl rfl rfl rfl).1 (by norm_num)
    exact h
  · exact ((C4_range_constraints "g" "node \x27n\x27" "n"
      [("type", .vStr "float"), ("min", .vInt 1), ("max", .vInt 5)] "float" rfl).2
      (.vInt 1) (.vInt 5) 1 5 (by decide) rfl rfl rfl rfl rfl rfl).2 (by norm_num)

/-- Claim C1 (amended).  The claim as frozen asserts that accepted
documents carry a positive integer version; the code checks presence and
`isinstance(_, int)` but never positivity, so zero and negative versions
are accepted (see `C1_counterexample`).  Amended statement: validation
fails with the missing-version error when `version` is absent and with
the type error when it is present but not an integer in Python's sense
(bool subclasses int), and every accepted document carries a version
passing that integer check. -/
theorem C1_version_integer_amended (d : AList) :
    (alookup "version" d = none →
      validate_schema (.vDict d) =
        .error (.schemaError "Schema must have a \x27version\x27 field")) ∧
    (∀ v, alookup "version" d = some v → isInstInt v = false →
      validate_schema (.vDict d) =
        .error (.schemaError "Schema \x27version\x27 must be an integer")) ∧
    (∀ r, validate_schema (.vDict d) = .ok r →
      ∃ v, alookup "version" d = some v ∧ isInstInt v = true) := by
  refine ⟨?_, ?_, ?_⟩
  · intro h
    simp [validate_schema, validate_schema_body, hasKey, h]
  · intro v hv hint
    simp [validate_schema, validate_schema_body, hasKey, hv, hint]
  · intro r hr
    cases hv : alookup "version" d with
    | none =>
        simp [validate_schema, validate_schema_body, hasKey, hv] at hr
    | some v =>
        cases hint : isInstInt v with
        | false => simp [validate_schema, validate_schema_body, hasKey, hv, hint] at hr
        | true => exact ⟨v, rfl, hint⟩

/-- Claim C1: counterexample to the frozen claim.  A document whose
version is the integer 0 is returned as valid, contradicting "no document
whose version is zero or negative is returned as valid". -/
theorem C1_counterexample :
    validate_schema (.vDict [("version", .vInt 0)]) =
      .ok (.vDict [("version", .vInt 0)]) := rfl

/-- Claim C1: witness instantiating the amended theorem at a concrete
document whose version is a string. -/
theorem C1_witness :
    validate_schema (.vDict [("version", .vStr "two")]) =
      .error (.schemaError "Schema \x27version\x27 must be an integer") :=
  (C1_version_integer_amended [("version", .vStr "two")]).2.1 (.vStr "two") rfl rfl

/-- Claim C6.  The spec's contract says `validate_schema` either returns
the document or raises `SchemaValidationError`, and the function's own
docstring documents `SchemaValidationError` as what it raises on invalid
schemas.  The code breaks this: a non-string `type` value reaches
`field_type.endswith("[]")` and raises `AttributeError`, and incomparable
`min`/`max` values on a numeric field reach `min_val > max_val` and raise
`TypeError`.  Both escapes are evaluated here on concrete documents. -/
theorem C6_nonschema_exceptions_escape :
    validate_schema (.vDict [("version", .vInt 1),
        ("nodes", .vDict [("n", .vDict [("fields",
          .vDict [("f", .vDict [("type", .vInt 5)])])])])]) =
      .error .attributeError ∧
    validate_schema (.vDict [("version", .vInt 1),
        ("nodes", .vDict [("n", .vDict [("fields",
          .vDict [("f", .vDict [("type", .vStr "int"),
            ("min", .vStr "a"), ("max", .vInt 10)])])])])]) =
      .error .typeError :=
  ⟨rfl, rfl⟩

/-- Claim C7.  On success `validate_schema` returns its input document
unchanged (the embedding returns the very `schema` value it was given and
mutates nothing), and validating the returned document again succeeds
with the same unchanged result. -/
theorem C7_validation_pure_idempotent (s r : Value)
    (h : validate_schema s = .ok r) :
    r = s ∧ validate_schema r = .ok r := by
  have hrs : r = s := by
    cases s with
    | vDict d =>
        cases hb : validate_schema_body d with
        | error e => simp [validate_schema, hb] at h
        | ok u => simp [validate_schema, hb] at h; exact h.symm
    | vNull => simp [validate_schema] at h
    | vBool b => simp [validate_schema] at h
    | vInt n => simp [validate_schema] at h
    | vFloat q => simp [validate_schema] at h
    | vStr t => simp [validate_schema] at h
    | vList l => simp [validate_schema] at h
  subst hrs
  exact ⟨rfl, h⟩

/-- Claim C7: witness at a concrete valid document. -/
theorem C7_witness :
    (.vDict [("version", .vInt 2)] : Value) = .vDict [("version", .vInt 2)] ∧
    validate_schema (.vDict [("version", .vInt 2)]) = .ok (.vDict [("version", .vInt 2)]) :=
  C7_validation_pure_idempotent (.vDict [("version", .vInt 2)]) (.vDict [("version", .vInt 2)]) rfl

/-- A document with no `version` key whose relationships also reference
an edge name that is not defined under `edges`. -/
def undefinedEdgeNoVersionDoc : AList :=
  [("nodes", .vDict [("A", .vDict [("fields", .vDict [])])]),
   ("edges", .vDict []),
   ("relationships", .vList [.vDict
      [("source", .vStr "A"), ("target", .vStr "A"),
       ("edges", .vList [.vStr "MISSING_EDGE"])]])]

/-- Claim C8.  Validation is fail-fast in the fixed checking order: any
document lacking `version` reports the version error no matter what else
is wrong, and in particular the concrete document that both lacks a
version and references an undefined edge reports the version error —
while the same document with a version added reports the undefined-edge
error, showing the later check is reached only once the earlier ones
pass. -/
theorem C8_fail_fast_order :
    (∀ d : AList, alookup "version" d = none →
      validate_schema (.vDict d) =
        .error (.schemaError "Schema must have a \x27version\x27 field")) ∧
    validate_schema (.vDict undefinedEdgeNoVersionDoc) =
      .error (.schemaError "Schema must have a \x27version\x27 field") ∧
    validate_schema (.vDict (("version", .vInt 1) :: undefinedEdgeNoVersionDoc)) =
      .error (.schemaError
        (relMsg 0 (" references undefined edge type \x27MISSING_EDGE\x27"))) := by
  refine ⟨?_, by rfl, by rfl⟩
  intro d h
  simp [validate_schema, validate_schema_body, hasKey, h]

/-- Claim C8: witness instantiating the universally quantified conjunct
at a concrete version-less document. -/
theorem C8_witness :
    validate_schema (.vDict [("edges", .vDict [])]) =
      .error (.schemaError "Schema must have a \x27version\x27 field") :=
  C8_fail_fast_order.1 [("edges", .vDict [])] rfl

/-- A single listed edge name is well-formed: a string naming a defined
edge. -/
def edgeNameGood (edgeNames : List String) : Value → Bool
  | .vStr n => decide (n ∈ edgeNames)
  | _ => false

/-- A relationship entry that passes every check of
`validate_relationships`: a dict with string `source`/`target` naming
defined nodes and a non-empty `edges` list of defined edge names. -/
def relGoodB (nodeNames edgeNames : List String) (rel : Value) : Bool :=
  match rel with
  | .vDict r =>
      match alookup "source" r, alookup "target" r, alookup "edges" r with
      | some (.vStr s), some (.vStr t), some (.vList es) =>
          decide (s ∈ nodeNames) && decide (t ∈ nodeNames) &&
          !es.isEmpty && es.all (edgeNameGood edgeNames)
      | _, _, _ => false
  | _ => false

/-- The shape the claim presumes of a relationship entry: a mapping with
string `source` and `target`, whose `edges` value, when it is a list,
lists strings. -/
def relShaped (rel : Value) : Prop :=
  ∃ r, rel = .vDict r ∧
    (∃ s, alookup "source" r = some (.vStr s)) ∧
    (∃ t, alookup "target" r = some (.vStr t)) ∧
    (∀ es, alookup "edges" r = some (.vList es) → ∀ e ∈ es, ∃ n, e = .vStr n)

lemma edgeNameGood_inv {en : List String} {e : Value}
    (h : edgeNameGood en e = true) : ∃ n, e = .vStr n ∧ n ∈ en := by
  cases e <;> simp_all [edgeNameGood]

lemma relGoodB_inv {nn en : List String} {rel : Value}
    (hg : relGoodB nn en rel = true) :
    ∃ r s t es, rel = .vDict r ∧
      alookup "source" r = some (.vStr s) ∧
      alookup "target" r = some (.vStr t) ∧
      alookup "edges" r = some (.vList es) ∧
      s ∈ nn ∧ t ∈ nn ∧ es ≠ [] ∧
      ∀ e ∈ es, ∃ n, e = .vStr n ∧ n ∈ en := by
  unfold relGoodB at hg
  split at hg
  case h_2 => exact absurd hg (by simp)
  case h_1 r =>
    split at hg
    case h_2 => exact absurd hg (by simp)
    case h_1 s t es hs htg hed =>
      simp only [Bool.and_eq_true, decide_eq_true_eq, Bool.not_eq_true',
        List.all_eq_true] at hg
      obtain ⟨⟨⟨hsn, htn⟩, hne⟩, hall⟩ := hg
      refine ⟨r, s, t, es, rfl, hs, htg, hed, hsn, htn, ?_, ?_⟩
      · intro h0; subst h0; simp at hne
      · exact fun e he => edgeNameGood_inv (hall e he)

lemma check_rel_edges_ok (en : List String) (i : Nat) (es : List Value)
    (h : ∀ e ∈ es, ∃ n, e = .vStr n ∧ n ∈ en) :
    check_rel_edges en i es = .ok () := by
  induction es with
  | nil => rfl
  | cons e rest ih =>
      obtain ⟨n, rfl, hn⟩ := h e (List.mem_cons_self e rest)
      simpa [check_rel_edges, pySetContains, hn] using
        ih (fun x hx => h x (List.mem_cons_of_mem _ hx))

lemma check_rel_edges_bad (en : List String) (i : Nat) (es : List Value)
    (hshape : ∀ e ∈ es, ∃ n, e = .vStr n)
    (hbad : es.all (edgeNameGood en) = false) :
    ∃ m, check_rel_edges en i es = .error (.schemaError (relMsg i m)) := by
  induction es with
  | nil => simp at hbad
  | cons e rest ih =>
      obtain ⟨n, rfl⟩ := hshape e (List.mem_cons_self e rest)
      by_cases hn : n ∈ en
      · have hbad2 : rest.all (edgeNameGood en) = false := by
          simpa [edgeNameGood, hn] using hbad
        obtain ⟨m, hm⟩ := ih (fun x hx => hshape x (List.mem_cons_of_mem _ hx)) hbad2
        exact ⟨m, by simp [check_rel_edges, pySetContains, hn, hm]⟩
      · exact ⟨" references undefined edge type \x27" ++ pyStr (.vStr n) ++ "\x27",
          by simp [check_rel_edges, pySetContains, hn]⟩

lemma check_rels_skip (nn en : List String) (i : Nat) (rel : Value)
    (rest : List Value) (hg : relGoodB nn en rel = true) :
    check_rels nn en i (rel :: rest) = check_rels nn en (i + 1) rest := by
  obtain ⟨r, s, t, es, rfl, hs, htg, hed, hsn, htn, hne, hall⟩ := relGoodB_inv hg
  cases es with
  | nil => exact absurd rfl hne
  | cons e0 es2 =>
      have hok := check_rel_edges_ok en i (e0 :: es2) hall
      simp [check_rels, pyContains, hasKey, hs, htg, hed, pyGetItem,
        pySetContains, hsn, htn, hok]

lemma check_rels_ok (nn en : List String) (es : List Value) (i : Nat)
    (h : ∀ rel ∈ es, relGoodB nn en rel = true) :
    check_rels nn en i es = .ok () := by
  induction es generalizing i with
  | nil => rfl
  | cons rel rest ih =>
      rw [check_rels_skip nn en i rel rest (h rel (List.mem_cons_self rel rest))]
      exact ih (i + 1) (fun x hx => h x (List.mem_cons_of_mem _ hx))

lemma check_rels_prefix (nn en : List String) (pre rest : List Value) (i : Nat)
    (h : ∀ x ∈ pre, relGoodB nn en x = true) :
    check_rels nn en i (pre ++ rest) = check_rels nn en (i + pre.length) rest := by
  induction pre generalizing i with
  | nil => simp
  | cons x xs ih =>
      rw [List.cons_append,
        check_rels_skip nn en i x (xs ++ rest) (h x (List.mem_cons_self x xs)),
        ih (i + 1) (fun y hy => h y (List.mem_cons_of_mem _ hy)),
        show i + 1 + xs.length = i + (x :: xs).length from by simp; omega]

lemma check_rels_bad_head (nn en : List String) (i : Nat) (rel : Value)
    (rest : List Value) (hsh : relShaped rel)
    (hb : relGoodB nn en rel = false) :
    ∃ m, check_rels nn en i (rel :: rest) = .error (.schemaError (relMsg i m)) := by
  obtain ⟨r, rfl, ⟨s, hs⟩, ⟨t, htg⟩, hesh⟩ := hsh
  by_cases hek : hasKey "edges" r = true
  · obtain ⟨ev, hed⟩ : ∃ ev, alookup "edges" r = some ev := by
      simpa [hasKey, Option.isSome_iff_exists] using hek
    by_cases hsn : s ∈ nn
    · by_cases htn : t ∈ nn
      · cases ev with
        | vList es =>
            cases es with
            | nil =>
                exact ⟨" must have non-empty \x27edges\x27 list",
                  by simp [check_rels, pyContains, hasKey, hs, htg, hed,
                    pyGetItem, pySetContains, hsn, htn]⟩
            | cons e0 es2 =>
                have hall : (e0 :: es2).all (edgeNameGood en) = false := by
                  have := hb
                  simp only [relGoodB, hs, htg, hed, Bool.and_eq_true,
                    decide_eq_true_eq] at this
                  simpa [hsn, htn] using this
                obtain ⟨m, hm⟩ := check_rel_edges_bad en i (e0 :: es2)
                  (hesh _ hed) hall
                exact ⟨m, by simp [check_rels, pyContains, hasKey, hs, htg, hed,
                  pyGetItem, pySetContains, hsn, htn, hm]⟩
        | vNull =>
            exact ⟨" must have non-empty \x27edges\x27 list",
              by simp [check_rels, pyContains, hasKey, hs, htg, hed,
                pyGetItem, pySetContains, hsn, htn]⟩
        | vBool b =>
            exact ⟨" must have non-empty \x27edges\x27 list",
              by simp [check_rels, pyContains, hasKey, hs, htg, hed,
                pyGetItem, pySetContains, hsn, htn]⟩
        | vInt n =>
            exact ⟨" must have non-empty \x27edges\x27 list",
              by simp [check_rels, pyContains, hasKey, hs, htg, hed,
                pyGetItem, pySetContains, hsn, htn]⟩
        | vFloat q =>
            exact ⟨" must have non-empty \x27edges\x27 list",
              by simp [check_rels, pyContains, hasKey, hs, htg, hed,
                pyGetItem, pySetContains, hsn, htn]⟩
        | vStr s2 =>
            exact ⟨" must have non-empty \x27edges\x27 list",
              by simp [check_rels, pyContains, hasKey, hs, htg, hed,
                pyGetItem, pySetContains, hsn, htn]⟩
        | vDict d2 =>
            exact ⟨" must have non-empty \x27edges\x27 list",
              by simp [check_rels, pyContains, hasKey, hs, htg, hed,
                pyGetItem, pySetContains, hsn, htn]⟩
      · exact ⟨" references undefined target node \x27" ++ pyStr (.vStr t) ++ "\x27",
          by simp [check_rels, pyContains, hasKey, hs, htg, hed,
            pyGetItem, pySetContains, hsn, htn]⟩
    · exact ⟨" references undefined source node \x27" ++ pyStr (.vStr s) ++ "\x27",
        by simp [check_rels, pyContains, hasKey, hs, htg, hed,
          pyGetItem, pySetContains, hsn]⟩
  · have hek2 : hasKey "edges" r = false := by
      cases h0 : hasKey "edges" r
      · rfl
      · exact absurd h0 hek
    exact ⟨" missing \x27edges\x27 field",
      by simp [check_rels, pyContains, hasKey, hs, htg] at hek2 ⊢; simp [hek2]⟩

/-- A schema document holding the given nodes, edges and relationships
sections. -/
def relDocA (N E : AList) (rs : List Value) : AList :=
  [("version", .vInt 1), ("nodes", .vDict N), ("edges", .vDict E),
   ("relationships", .vList rs)]

/-- Claim C5.  Over a document with well-formed node and edge sections:
when every relationship entry names only defined nodes and edges (with a
non-empty edge list), relationship validation and `validate_schema`
succeed; and when the entries before position `i` are good and the entry
at `i` (of the shape the claim presumes) violates any of the claim's
conditions — undefined source or target node, missing, non-list or empty
`edges`, or an undefined listed edge name — validation fails with a
`SchemaValidationError` whose message names the 1-indexed entry `i+1`. -/
theorem C5_relationship_references (N E : AList) (rs : List Value)
    (hN : check_entities "Node" "node" N = .ok ())
    (hE : check_entities "Edge" "edge" E = .ok ()) :
    ((∀ rel ∈ rs, relGoodB (dictKeys N) (dictKeys E) rel = true) →
      validate_relationships (relDocA N E rs) = .ok () ∧
      validate_schema (.vDict (relDocA N E rs)) = .ok (.vDict (relDocA N E rs))) ∧
    (∀ pre rel post, rs = pre ++ rel :: post →
      (∀ x ∈ pre, relGoodB (dictKeys N) (dictKeys E) x = true) →
      relShaped rel → relGoodB (dictKeys N) (dictKeys E) rel = false →
      ∃ m, validate_relationships (relDocA N E rs) =
          .error (.schemaError (relMsg pre.length m)) ∧
        validate_schema (.vDict (relDocA N E rs)) =
          .error (.schemaError (relMsg pre.length m))) := by
  have hvr : validate_relationships (relDocA N E rs) =
      check_rels (dictKeys N) (dictKeys E) 0 rs := by
    simp [validate_relationships, relDocA, hasKey, alookup, pyKeys, pyIter]
  have hbody : validate_schema_body (relDocA N E rs) =
      validate_relationships (relDocA N E rs) := by
    simp [validate_schema_body, relDocA, hasKey, alookup, isInstInt,
      check_section, hN, hE]
  constructor
  · intro hall
    have hok : validate_relationships (relDocA N E rs) = .ok () := by
      rw [hvr]; exact check_rels_ok _ _ rs 0 hall
    refine ⟨hok, ?_⟩
    simp only [validate_schema, hbody, hok]
  · intro pre rel post hsplit hpre hsh hb
    subst hsplit
    obtain ⟨m, hm⟩ := check_rels_bad_head (dictKeys N) (dictKeys E)
      (0 + pre.length) rel post hsh hb
    have herr : validate_relationships (relDocA N E (pre ++ rel :: post)) =
        .error (.schemaError (relMsg pre.length m)) := by
      rw [hvr, check_rels_prefix _ _ pre (rel :: post) 0 hpre, hm]
      simp
    exact ⟨m, herr, by simp only [validate_schema, hbody, herr]⟩

/-- Claim C5: witness instantiating the success conjunct at a concrete
document with one well-formed relationship. -/
theorem C5_witness :
    validate_relationships (relDocA
      [("A", .vDict [("fields", .vDict [])])]
      [("E1", .vDict [("fields", .vDict [])])]
      [.vDict [("source", .vStr "A"), ("target", .vStr "A"),
               ("edges", .vList [.vStr "E1"])]]) = .ok () ∧
    validate_schema (.vDict (relDocA
      [("A", .vDict [("fields", .vDict [])])]
      [("E1", .vDict [("fields", .vDict [])])]
      [.vDict [("source", .vStr "A"), ("target", .vStr "A"),
               ("edges", .vList [.vStr "E1"])]])) =
      .ok (.vDict (relDocA
        [("A", .vDict [("fields", .vDict [])])]
        [("E1", .vDict [("fields", .vDict [])])]
        [.vDict [("source", .vStr "A"), ("target", .vStr "A"),
                 ("edges", .vList [.vStr "E1"])]])) :=
  (C5_relationship_references
    [("A", .vDict [("fields", .vDict [])])]
    [("E1", .vDict [("fields", .vDict [])])]
    [.vDict [("source", .vStr "A"), ("target", .vStr "A"),
             ("edges", .vList [.vStr "E1"])]] rfl rfl).1 (by decide)

/-- Removal of a key from a mapping (used to state that an unrecognized
regex contributes nothing: the output equals the output with the regex
constraint erased). -/
def removeKey (k : String) : AList → AList
  | [] => []
  | (k2, v) :: rest => if k2 = k then removeKey k rest else (k2, v) :: removeKey k rest

lemma alookup_removeKey (k k2 : String) (d : AList) :
    alookup k2 (removeKey k d) = if k2 = k then none else alookup k2 d := by
  induction d with
  | nil => simp [removeKey, alookup]
  | cons kv rest ih =>
      obtain ⟨k3, v⟩ := kv
      by_cases h3 : k3 = k
      · subst h3
        by_cases h2 : k2 = k3
        · subst h2
          simp [removeKey, alookup, ih]
        · simp [removeKey, alookup, ih, h2, Ne.symm h2]
      · by_cases h2 : k3 = k2
        · subst h2
          simp [removeKey, alookup, h3]
        · simp [removeKey, alookup, h3, h2, ih]

/-- Claim C9.  For a field carrying a regex constraint and no enum: a
pattern recognized by the heuristics yields the corresponding built-in
validator tag (ipv4, email, or url, tried in that order); an unrecognized
pattern contributes nothing — the emitted tags equal those of the same
field with the regex constraint erased; and every emitted tag corresponds
to a constraint declared on the field, so the generated constraint set is
a subset of the declared ones. -/
theorem C9_go_regex_tags (fd : AList) (r : String)
    (hre : alookup "regex" fd = some (.vStr r))
    (hen : hasKey "enum" fd = false)
    (hty : ∀ v, alookup "type" fd = some v → ∃ s, v = .vStr s) :
    (is_ipv4_regex r = true →
      ∃ tags, go_validation_tags fd = .ok tags ∧ "ipv4" ∈ tags) ∧
    (is_ipv4_regex r = false → hasSubB (strToLower r) "email" = true →
      ∃ tags, go_validation_tags fd = .ok tags ∧ "email" ∈ tags) ∧
    (is_ipv4_regex r = false → hasSubB (strToLower r) "email" = false →
      strStartsWith r "^https?://" = true →
      ∃ tags, go_validation_tags fd = .ok tags ∧ "url" ∈ tags) ∧
    (is_ipv4_regex r = false → hasSubB (strToLower r) "email" = false →
      strStartsWith r "^https?://" = false →
      go_validation_tags fd = go_validation_tags (removeKey "regex" fd)) ∧
    (∀ tags, go_validation_tags fd = .ok tags → ∀ tag ∈ tags,
      tag = "omitempty" ∨
      ((tag = "ipv4" ∨ tag = "email" ∨ tag = "url") ∧ hasKey "regex" fd = true) ∨
      (∃ v, alookup "min" fd = some v ∧ tag = "min=" ++ pyStr v) ∨
      (∃ v, alookup "max" fd = some v ∧ tag = "max=" ++ pyStr v)) := by
  obtain ⟨bt, hbt⟩ : ∃ bt,
      pyRstrip ((alookup "type" fd).getD (.vStr "string")) = .ok bt := by
    cases h0 : alookup "type" fd with
    | none => exact ⟨rstripBrackets "string", by simp [pyRstrip]⟩
    | some v =>
        obtain ⟨s, rfl⟩ := hty v h0
        exact ⟨rstripBrackets s, by simp [pyRstrip]⟩
  have henum : go_enum_tags fd = .ok [] := by simp [go_enum_tags, hen]
  have hrkey : hasKey "regex" fd = true := by simp [hasKey, hre]
  have hmain : ∀ rt, go_regex_tags fd = .ok rt →
      go_validation_tags fd =
        .ok (["omitempty"] ++ rt ++ go_min_tags fd ++ go_max_tags fd) := by
    intro rt hrt
    simp [go_validation_tags, hbt, henum, hrt]
  have hminmax : ∀ tag, tag ∈ go_min_tags fd ++ go_max_tags fd →
      (∃ v, alookup "min" fd = some v ∧ tag = "min=" ++ pyStr v) ∨
      (∃ v, alookup "max" fd = some v ∧ tag = "max=" ++ pyStr v) := by
    intro tag htag
    rcases List.mem_append.mp htag with h1 | h2
    · left
      cases h0 : alookup "min" fd with
      | none => rw [go_min_tags, h0] at h1; simp at h1
      | some v =>
          rw [go_min_tags, h0] at h1
          simp at h1
          exact ⟨v, rfl, h1⟩
    · right
      cases h0 : alookup "max" fd with
      | none => rw [go_max_tags, h0] at h2; simp at h2
      | some v =>
          rw [go_max_tags, h0] at h2
          simp at h2
          exact ⟨v, rfl, h2⟩
  refine ⟨?_, ?_, ?_, ?_, ?_⟩
  · intro h4
    have hrt : go_regex_tags fd = .ok ["ipv4"] := by
      simp [go_regex_tags, hrkey, hen, hre, h4]
    exact ⟨_, hmain _ hrt, by simp⟩
  · intro h4 hm
    have hrt : go_regex_tags fd = .ok ["email"] := by
      simp [go_regex_tags, hrkey, hen, hre, h4, hm]
    exact ⟨_, hmain _ hrt, by simp⟩
  · intro h4 hm hu
    have hrt : go_regex_tags fd = .ok ["url"] := by
      simp [go_regex_tags, hrkey, hen, hre, h4, hm, hu]
    exact ⟨_, hmain _ hrt, by simp⟩
  · intro h4 hm hu
    have hrt : go_regex_tags fd = .ok [] := by
      simp [go_regex_tags, hrkey, hen, hre, h4, hm, hu]
    have hty2 : alookup "type" (removeKey "regex" fd) = alookup "type" fd := by
      rw [alookup_removeKey]; simp
    have hen2 : go_enum_tags (removeKey "regex" fd) = .ok [] := by
      have : alookup "enum" (removeKey "regex" fd) = alookup "enum" fd := by
        rw [alookup_removeKey]; simp
      simp [go_enum_tags, hasKey, this]
      simp [hasKey] at hen
      simp [hen]
    have hre2 : go_regex_tags (removeKey "regex" fd) = .ok [] := by
      have : hasKey "regex" (removeKey "regex" fd) = false := by
        simp [hasKey, alookup_removeKey]
      simp [go_regex_tags, this]
    have hmin2 : go_min_tags (removeKey "regex" fd) = go_min_tags fd := by
      have : alookup "min" (removeKey "regex" fd) = alookup "min" fd := by
        rw [alookup_removeKey]; simp
      simp [go_min_tags, this]
    have hmax2 : go_max_tags (removeKey "regex" fd) = go_max_tags fd := by
      have : alookup "max" (removeKey "regex" fd) = alookup "max" fd := by
        rw [alookup_removeKey]; simp
      simp [go_max_tags, this]
    rw [hmain _ hrt]
    simp [go_validation_tags, hty2, hbt, hen2, hre2, hmin2, hmax2]
  · intro tags htags tag htag
    have hrt4 : go_regex_tags fd = .ok ["ipv4"] ∨ go_regex_tags fd = .ok ["email"] ∨
        go_regex_tags fd = .ok ["url"] ∨ go_regex_tags fd = .ok [] := by
      simp only [go_regex_tags, hrkey, hen, hre, Bool.not_false, Bool.and_self,
        if_true, Option.getD_some]
      split_ifs <;> simp
    have key : ∀ rt : List String, go_regex_tags fd = .ok rt →
        (∀ x ∈ rt, x = "ipv4" ∨ x = "email" ∨ x = "url") →
        tag = "omitempty" ∨
        ((tag = "ipv4" ∨ tag = "email" ∨ tag = "url") ∧ hasKey "regex" fd = true) ∨
        (∃ v, alookup "min" fd = some v ∧ tag = "min=" ++ pyStr v) ∨
        (∃ v, alookup "max" fd = some v ∧ tag = "max=" ++ pyStr v) := by
      intro rt hrt hsub
      have := hmain _ hrt
      rw [htags] at this
      have htags2 : tags = ["omitempty"] ++ rt ++ go_min_tags fd ++ go_max_tags fd :=
        Except.ok.inj this
      rw [htags2] at htag
      rcases List.mem_append.mp htag with h1 | h2
      · rcases List.mem_append.mp h1 with h3 | h4
        · rcases List.mem_append.mp h3 with h5 | h6
          · left; simpa using h5
          · exact Or.inr (Or.inl ⟨hsub tag h6, hrkey⟩)
        · exact Or.inr (Or.inr (hminmax tag (List.mem_append.mpr (Or.inl h4))))
      · exact Or.inr (Or.inr (hminmax tag (List.mem_append.mpr (Or.inr h2))))
    rcases hrt4 with h | h | h | h
    · exact key _ h (by simp)
    · exact key _ h (by simp)
    · exact key _ h (by simp)
    · exact key _ h (by simp)

/-- Claim C9: witness instantiating the url case and the subset property
at a concrete field. -/
theorem C9_witness :
    (∃ tags, go_validation_tags
        [("type", .vStr "string"), ("regex", .vStr "^https?://example")] =
      .ok tags ∧ "url" ∈ tags) :=
  ((C9_go_regex_tags
      [("type", .vStr "string"), ("regex", .vStr "^https?://example")]
      "^https?://example" rfl rfl
      (by intro v hv; exact ⟨"string", by simpa [alookup] using hv.symm⟩)).2.2.1
    (by decide) (by decide) (by decide))

/-- Claim C10.  The generated Python models make every field optional
with default `None`: `prepare_field_for_pydantic` always emits the
literal `"None"` as the first `Field` argument, so (per the modelled
pydantic semantics) an omitted field — including the constrained
`Target.risk_score` — is accepted, while a supplied value is checked
against the declared bounds. -/
theorem C10_optional_fields :
    (∀ fn fd pf, prepare_field_for_pydantic fn fd = .ok pf →
      pf.field_args = "None" ∨ ∃ rest, pf.field_args = "None, " ++ rest) ∧
    (∀ g l, pydanticOptionalNumericAccepts g l none = true) ∧
    riskScoreAccepts none = true ∧
    riskScoreAccepts (some (.vFloat 11)) = false ∧
    riskScoreAccepts (some (.vFloat 10)) = true ∧
    riskScoreAccepts (some (.vFloat 0)) = true := by
  refine ⟨?_, fun g l => rfl, rfl, by decide, by decide, by decide⟩
  intro fn fd pf h
  rw [prepare_field_for_pydantic] at h
  cases h0 : (alookup "type" fd).getD (.vStr "string") with
  | vStr yt =>
      rw [h0] at h
      cases h1 : pydantic_enum_literal fd with
      | error e => rw [h1] at h; exact absurd h (by simp)
      | ok enumLit =>
          rw [h1] at h
          simp only [Except.ok.injEq] at h
          have hargs : pf.field_args = joinSep ", " ("None" ::
              ((if pyTruthy ((alookup "description" fd).getD (.vStr "")) then
                  ["description=" ++ pyRepr ((alookup "description" fd).getD (.vStr ""))]
                else []) ++
              (match alookup "min" fd with
               | some v => ["ge=" ++ pyStr v]
               | none => []) ++
              (match alookup "max" fd with
               | some v => ["le=" ++ pyStr v]
               | none => []))) := by
            rw [← h]
          rw [hargs]
          cases hkw : ((if pyTruthy ((alookup "description" fd).getD (.vStr "")) then
                  ["description=" ++ pyRepr ((alookup "description" fd).getD (.vStr ""))]
                else []) ++
              (match alookup "min" fd with
               | some v => ["ge=" ++ pyStr v]
               | none => []) ++
              (match alookup "max" fd with
               | some v => ["le=" ++ pyStr v]
               | none => [])) with
          | nil => exact Or.inl rfl
          | cons x xs => exact Or.inr ⟨joinSep ", " (x :: xs), rfl⟩
  | vNull => rw [h0] at h; exact absurd h (by simp)
  | vBool b => rw [h0] at h; exact absurd h (by simp)
  | vInt n => rw [h0] at h; exact absurd h (by simp)
  | vFloat q => rw [h0] at h; exact absurd h (by simp)
  | vList l => rw [h0] at h; exact absurd h (by simp)
  | vDict d2 => rw [h0] at h; exact absurd h (by simp)

/-- The prepared form of a float field with a `min: 0` bound. -/
def preparedBoundedFloat : PreparedField :=
  { python_type := "float", field_args := "None, ge=0", description := .vStr "" }

/-- Claim C10: witness instantiating the first conjunct at a concrete
field with a bound, where the emitted arguments are `None, ge=0`. -/
theorem C10_witness :
    preparedBoundedFloat.field_args = "None" ∨
    ∃ rest, preparedBoundedFloat.field_args = "None, " ++ rest :=
  C10_optional_fields.1 "f" [("type", .vStr "float"), ("min", .vInt 0)]
    preparedBoundedFloat rfl

end Taxonomy
